import Mathlib

/-!
# Verification of the meal-bot selection-and-sync core

Shallow embedding of the repository's storage and sync layer:

* `src/src/database.py` — SQLAlchemy models `Meal` and `UserMealSelection`
  and the `Database` operations `clear_meals`, `insert_meals`, `get_meals`,
  `select_meal`, `get_user_selections`.
* `src/src/sheets.py` — the pure filtering step of `SheetsClient.fetch_meals`
  (trim cells, drop empties).
* `src/src/bot.py` — the `sync_meals` coroutine orchestrating
  fetch → clear → insert.
* `src/src/utils.py` — `get_current_week_start`.

Dates are modelled as proleptic-Gregorian day ordinals (`Nat`), matching
Python's `date.toordinal()`: ordinal 1 is 0001-01-01, a Monday, so
`weekday d = (d - 1) % 7` with Monday = 0, exactly Python's `date.weekday()`.
Timestamps (`synced_at`, `created_at`) are opaque `Nat`s.

The store runs on sqlite (`DATABASE_URL = f"sqlite:///…"` in config.py).
Two sqlite facts the embedding encodes:
* row ids are assigned as max(existing id) + 1 (no AUTOINCREMENT keyword),
* the `ForeignKey("meals.id")` on `meal_id` is NOT enforced — the
  `foreign_keys` pragma is never enabled, so dangling `meal_id`s insert fine.

Each transaction (`get_db_session`) commits on success and rolls back on
exception, so a fallible operation either returns the fully-updated state or
leaves the state exactly as it was (`Except` with the caller keeping the old
state on `.error`).
-/

/-- A row of the `meals` table: `id` (integer primary key), `name`
(unique, non-null), `synced_at` timestamp. -/
structure Meal where
  id : Nat
  name : String
  synced_at : Nat
deriving Repr, DecidableEq

/-- A row of the `user_meal_selections` table, with the compound unique
constraint `unique_user_meal_date` on (user_id, meal_id, selected_date). -/
structure UserMealSelection where
  id : Nat
  user_id : Nat
  meal_id : Nat
  selected_date : Nat
  created_at : Nat
deriving Repr, DecidableEq

/-- The persisted state: the two tables. -/
structure DBState where
  meals : List Meal
  selections : List UserMealSelection
deriving Repr, DecidableEq

/-- Storage faults. `integrityError` models SQLAlchemy's `IntegrityError`
(a unique-constraint violation at commit); `storageError` models every other
exception raised inside a session. -/
inductive DBError where
  | integrityError
  | storageError
deriving Repr, DecidableEq

/-- sqlite rowid assignment without AUTOINCREMENT: one more than the largest
existing id (1 on an empty table). -/
def freshId (ids : List Nat) : Nat :=
  ids.foldr max 0 + 1

/-- `Database.clear_meals` (database.py:78-86): `session.query(Meal).delete()`
in one committed transaction. Deletes every meal row; touches nothing else. -/
def clear_meals (s : DBState) : DBState :=
  { s with meals := [] }

/-- The loop body of `Database.insert_meals` (database.py:93-95): pend one
`Meal(name=meal_name, synced_at=now)`; the row id is assigned in flush order
(sqlite rowid = max + 1). -/
def add_meal_row (now : Nat) (st : DBState) (n : String) : DBState :=
  { st with meals := st.meals ++ [⟨freshId (st.meals.map Meal.id), n, now⟩] }

/-- `Database.insert_meals` (database.py:88-99): one session, one
`datetime.now()` stamp, one `session.merge(Meal(name=…, synced_at=now))` per
name. The merged objects carry no primary key, so each merge pends a plain
INSERT; ids are assigned in flush order. The commit raises `IntegrityError`
iff the resulting table violates the unique constraint on `name`, and the
session then rolls back (caller keeps the prior state) and re-raises. -/
def insert_meals (s : DBState) (names : List String) (now : Nat) :
    Except DBError DBState :=
  let pending := names.foldl (add_meal_row now) s
  if (pending.meals.map Meal.name).Nodup then
    .ok pending
  else
    .error .integrityError

/-- `Database.get_meals` (database.py:101-109):
`session.query(Meal.id, Meal.name).order_by(Meal.id).all()`. -/
def get_meals (s : DBState) : List (Nat × String) :=
  (s.meals.insertionSort (fun a b => a.id ≤ b.id)).map (fun m => (m.id, m.name))

/-- `Database.select_meal` (database.py:111-132): inserts one
`UserMealSelection` row and commits. The commit raises `IntegrityError` iff
the (user_id, meal_id, selected_date) triple already exists (the
`unique_user_meal_date` constraint; the meals foreign key is not enforced by
sqlite); that is caught and turned into `False` with the insert rolled back.
`fault` models any other exception inside the session, which rolls back and
re-raises. On success returns `True` with the row committed. -/
def select_meal (s : DBState) (user_id meal_id selected_date created_at : Nat)
    (fault : Bool) : Except DBError (Bool × DBState) :=
  if fault then
    .error .storageError
  else if s.selections.any (fun r =>
      r.user_id == user_id && r.meal_id == meal_id &&
      r.selected_date == selected_date) then
    .ok (false, s)
  else
    .ok (true, { s with selections := s.selections ++
      [⟨freshId (s.selections.map UserMealSelection.id),
        user_id, meal_id, selected_date, created_at⟩] })

/-- `Database.get_user_selections` (database.py:134-158): inner-joins
selections to meals on `Meal.id == UserMealSelection.meal_id`, filters to the
user and to `week_start <= selected_date < week_start + 7`, orders by
`selected_date` ascending, and returns (meal_name, selected_date) pairs. -/
def get_user_selections (s : DBState) (user_id week_start : Nat) :
    List (String × Nat) :=
  let week_end := week_start + 7
  let joined := s.selections.filterMap (fun r =>
    if r.user_id = user_id ∧ week_start ≤ r.selected_date ∧
        r.selected_date < week_end then
      (s.meals.find? (fun m => m.id == r.meal_id)).map
        (fun m => (m.name, r.selected_date))
    else none)
  joined.insertionSort (fun a b => a.2 ≤ b.2)

/-- Python's `str.strip()` on the character list: drop leading and trailing
whitespace characters. -/
def strip_chars (l : List Char) : List Char :=
  ((l.dropWhile Char.isWhitespace).reverse.dropWhile Char.isWhitespace).reverse

/-- Python's `str.strip()` (no-argument form) as used in sheets.py. -/
def python_strip (s : String) : String :=
  ⟨strip_chars s.data⟩

/-- The pure tail of `SheetsClient.fetch_meals` (sheets.py:52-60): from the
raw single-column rows, `[meal[0].strip() for meal in values if meal and
meal[0].strip()]` — keep the trimmed first cell of each non-empty row whose
trimmed first cell is non-empty (Python truthiness of a string is
non-emptiness). -/
def fetch_filter (values : List (List String)) : List String :=
  values.filterMap (fun row =>
    match row with
    | [] => none
    | c :: _ =>
      let t := python_strip c
      if t = "" then none else some t)

/-- Fetch failure: `SheetsClient.fetch_meals` re-raises any API exception. -/
inductive FetchError where
  | fetchFailure
deriving Repr, DecidableEq

/-- The sequence of database states committed (hence observable to concurrent
readers) by one run of `sync_meals` (bot.py:45-59), given the fetch outcome as
raw sheet rows. On fetch failure nothing is committed. Otherwise
`db.clear_meals()` commits first — unconditionally, before the emptiness
check — then, if the filtered list is non-empty, `db.insert_meals` commits;
if the insert raises, the outer `except` swallows it and the cleared state is
the last commit. -/
def sync_commits (s : DBState) (fetchResult : Except FetchError (List (List String)))
    (now : Nat) : List DBState :=
  match fetchResult with
  | .error _ => []
  | .ok values =>
    let meals := fetch_filter values
    let s1 := clear_meals s
    if meals.isEmpty then
      [s1]
    else
      match insert_meals s1 meals now with
      | .ok s2 => [s1, s2]
      | .error _ => [s1]

/-- `sync_meals` (bot.py:45-59): the state after the run — the last committed
state, or the untouched state when nothing was committed. The coroutine
catches every exception, so it never raises. -/
def sync_meals (s : DBState) (fetchResult : Except FetchError (List (List String)))
    (now : Nat) : DBState :=
  (sync_commits s fetchResult now).getLastD s

/-- `get_current_week_start` (utils.py:7-13) on day ordinals: Python's
`date.weekday()` is `(ordinal - 1) % 7` (ordinal 1 = 0001-01-01, a Monday,
weekday 0), and the function returns `today - timedelta(days=today.weekday())`. -/
def weekday (d : Nat) : Nat :=
  (d - 1) % 7

/-- `get_current_week_start` (utils.py:7-13): subtract the days since Monday
from today's date. Pure function of the wall-clock date `today`. -/
def get_current_week_start (today : Nat) : Nat :=
  today - weekday today

/-- The catalog operations one `sync_meals` run commits, as an explicit trace
for reasoning about overlapping runs. `sync_meals` (bot.py:45-66) keeps no
in-flight flag or `Idle`/`Syncing` state: which operations a run performs
depends only on its own fetch result, never on another run being mid-flight. -/
inductive SyncOp where
  | clearOp
  | insertOp (names : List String) (now : Nat)
deriving Repr, DecidableEq

/-- The operation sequence of one `sync_meals` run whose fetch produced
`fetchResult`: nothing on fetch failure; otherwise the unconditional clear,
followed by the insert when the filtered list is non-empty. -/
def sync_run_ops (fetchResult : Except FetchError (List (List String)))
    (now : Nat) : List SyncOp :=
  match fetchResult with
  | .error _ => []
  | .ok values =>
    let meals := fetch_filter values
    if meals.isEmpty then [.clearOp] else [.clearOp, .insertOp meals now]

/-- Apply one catalog operation to the store; a failing insert is swallowed by
`sync_meals`'s outer `except`, leaving the state of the last commit. -/
def applySyncOp (s : DBState) : SyncOp → DBState
  | .clearOp => clear_meals s
  | .insertOp names now =>
    match insert_meals s names now with
    | .ok s' => s'
    | .error _ => s

/-- How many times a (possibly interleaved) operation trace executes the
catalog replacement: each `clearOp` starts one clear-then-reinsert
replacement. -/
def count_replacements (ops : List SyncOp) : Nat :=
  ops.countP (fun o => o == SyncOp.clearOp)

/-- Concrete catalog holding one meal, used to exhibit the empty-fetch wipe. -/
def c1_state : DBState :=
  ⟨[⟨1, "x", 0⟩], [⟨1, 9, 1, 738886, 0⟩]⟩

/-- Concrete catalog holding one meal named "a". -/
def c2_state : DBState :=
  ⟨[⟨1, "a", 0⟩], []⟩

/-- Concrete catalog holding one meal named "Old". -/
def c3_state : DBState :=
  ⟨[⟨1, "Old", 0⟩], []⟩

/-- Concrete store for the weekly-query example: one meal "Pasta" and
selections by user 7 on ordinals 738886 (2024-01-01, a Monday),
738892 (2024-01-07) and 738893 (2024-01-08). -/
def c5_state : DBState :=
  ⟨[⟨1, "Pasta", 0⟩],
   [⟨1, 7, 1, 738886, 0⟩, ⟨2, 7, 1, 738892, 0⟩, ⟨3, 7, 1, 738893, 0⟩]⟩

instance : IsTotal (String × Nat) (fun a b => a.2 ≤ b.2) :=
  ⟨fun a b => Nat.le_total a.2 b.2⟩

instance : IsTrans (String × Nat) (fun a b => a.2 ≤ b.2) :=
  ⟨fun _ _ _ => Nat.le_trans⟩

/-! ## Helper lemmas -/

/-- Pending meal inserts never touch the selections table. -/
theorem foldl_add_meal_row_selections (names : List String) (s : DBState) (now : Nat) :
    (names.foldl (add_meal_row now) s).selections = s.selections := by
  induction names generalizing s with
  | nil => rfl
  | cons n ns ih => simpa [add_meal_row] using ih (add_meal_row now s n)

/-- Coherence of the two sync models: folding the operation trace of one run
over the store is the run's final state. -/
theorem sync_run_ops_foldl (s : DBState)
    (f : Except FetchError (List (List String))) (now : Nat) :
    (sync_run_ops f now).foldl applySyncOp s = sync_meals s f now := by
  cases f with
  | error e => rfl
  | ok values =>
    unfold sync_run_ops sync_meals sync_commits
    by_cases h : (fetch_filter values).isEmpty
    · simp [h, applySyncOp]
    · simp only [h, if_false, Bool.false_eq_true]
      cases hi : insert_meals (clear_meals s) (fetch_filter values) now <;>
        simp [applySyncOp, hi]

/-! ## C1 — empty fetch and the catalog -/

/-- **C1 counterexample.** The claim says an empty fetch leaves the Meal rows
identical; but `sync_meals` commits `clear_meals` before testing emptiness
(bot.py:52-53), so a successful empty fetch wipes the one-meal catalog
`c1_state`. -/
theorem sync_empty_fetch_wipes_catalog_cex :
    (sync_meals c1_state (.ok []) 5).meals = [] ∧ c1_state.meals ≠ [] :=
  ⟨rfl, by decide⟩

/-- **C1 (amended).** When the fetch succeeds with an empty result the run
skips only the insert step: the clear has already committed, so the catalog is
empty after the run, while the selections table is untouched. -/
theorem sync_empty_fetch_clears_catalog (s : DBState) (now : Nat) :
    (sync_meals s (.ok []) now).meals = [] ∧
    (sync_meals s (.ok []) now).selections = s.selections :=
  ⟨rfl, rfl⟩

/-! ## C2 — catalog replacement is not all-or-nothing -/

/-- **C2 counterexample.** Replacing catalog `{(1, "a")}` by `["b"]` commits
the cleared state first: the first committed (reader-observable) state has an
empty meal list, which is neither the prior catalog `[(1, "a")]` nor the full
replacement `[(1, "b")]` — an intermediate state with the old rows deleted and
the new ones not yet present. -/
theorem replace_intermediate_state_observable_cex :
    (sync_commits c2_state (.ok [["b"]]) 5).head? = some (clear_meals c2_state) ∧
    get_meals (clear_meals c2_state) = [] ∧
    get_meals c2_state = [(1, "a")] ∧
    get_meals (sync_meals c2_state (.ok [["b"]]) 5) = [(1, "b")] := by
  decide

/-- **C2 (amended).** Replacement runs as two separately committed
transactions: for every prior state and fetched rows, the first committed
state of the run is the cleared catalog (no meal rows), observable to readers
before the insert commits; each single transaction is atomic, but the pair is
not. -/
theorem replace_clear_commits_first (s : DBState)
    (values : List (List String)) (now : Nat) :
    (sync_commits s (.ok values) now).head? = some (clear_meals s) ∧
    (clear_meals s).meals = [] := by
  refine ⟨?_, rfl⟩
  unfold sync_commits
  by_cases h : (fetch_filter values).isEmpty
  · simp [h]
  · simp only [h, if_false, Bool.false_eq_true]
    cases hi : insert_meals (clear_meals s) (fetch_filter values) now <;> simp [hi]

/-! ## C3 — duplicate names in a replacement batch -/

/-- **C3 (code bug).** The claim (and the comment in database.py:95, "Use
merge to handle duplicates gracefully") says duplicate input names collapse to
one stored Meal. In fact `session.merge` keys on the unset primary key, so
both rows are inserted and the unique `name` constraint raises
`IntegrityError` at commit: inserting `["Soup", "Soup"]` fails, and a sync run
fetching two identical cells leaves the catalog empty (the clear had already
committed) instead of containing "Soup" once. -/
theorem insert_duplicate_names_raises :
    insert_meals (clear_meals c3_state) ["Soup", "Soup"] 5 = .error .integrityError ∧
    get_meals (sync_meals c3_state (.ok [["Soup"], ["Soup"]]) 5) = [] :=
  ⟨by rfl, by decide⟩

/-! ## C9 — current week start -/

/-- **C9.** For every day ordinal `d ≥ 1`, `get_current_week_start` returns
the Monday on or before `d`: its weekday is Monday (0), it is at most `d` and
at most 6 days earlier, and a Monday maps to itself. -/
theorem get_current_week_start_is_monday (d : Nat) (h : 1 ≤ d) :
    weekday (get_current_week_start d) = 0 ∧
    get_current_week_start d ≤ d ∧
    d - get_current_week_start d ≤ 6 ∧
    (weekday d = 0 → get_current_week_start d = d) := by
  unfold get_current_week_start weekday
  omega

/-- **C9 witness** at ordinal 738887 (2024-01-02, a Tuesday). -/
theorem get_current_week_start_is_monday_witness :
    1 ≤ 738887 ∧
    (weekday (get_current_week_start 738887) = 0 ∧
     get_current_week_start 738887 ≤ 738887 ∧
     738887 - get_current_week_start 738887 ≤ 6 ∧
     (weekday 738887 = 0 → get_current_week_start 738887 = 738887)) :=
  ⟨by decide, get_current_week_start_is_monday 738887 (by decide)⟩

/-! ## C10 — catalog mutation never touches selections -/

/-- **C10.** Clearing the cached meals, pending a batch of meal inserts, and
running the full insert step (success or swallowed failure) all leave every
row of the selections table unchanged. -/
theorem catalog_mutation_preserves_selections (s : DBState)
    (names : List String) (now : Nat) :
    (clear_meals s).selections = s.selections ∧
    (names.foldl (add_meal_row now) s).selections = s.selections ∧
    (applySyncOp s (.insertOp names now)).selections = s.selections := by
  refine ⟨rfl, foldl_add_meal_row_selections names s now, ?_⟩
  unfold applySyncOp insert_meals
  by_cases hn : ((names.foldl (add_meal_row now) s).meals.map Meal.name).Nodup
  · simp [hn, foldl_add_meal_row_selections]
  · simp [hn]

/-! ## C8 — no guard against overlapping sync runs -/

/-- **C8 counterexample.** The claim says a second sync trigger arriving while
one run is in flight is a no-op, so two concurrent invocations execute the
catalog replacement exactly once. bot.py keeps no in-flight flag: a run's
operations depend only on its own fetch result. In the interleaving where the
second trigger's operations all commit between the first run's fetch and its
clear, the merged trace executes the replacement twice. -/
theorem concurrent_sync_double_replacement_cex :
    count_replacements
      (sync_run_ops (.ok [["b"]]) 2 ++ sync_run_ops (.ok [["a"]]) 1) = 2 := by
  decide

/-- **C8 (amended).** There is no `Idle`/`Syncing` guard in the code: any two
sync invocations whose fetches succeed each execute the catalog replacement —
the combined operation trace performs it twice, never once. (`sync_meals`
itself swallows every exception, so a failing run cannot wedge later runs.) -/
theorem concurrent_sync_both_execute (v1 v2 : List (List String)) (n1 n2 : Nat) :
    count_replacements (sync_run_ops (.ok v1) n1 ++ sync_run_ops (.ok v2) n2) = 2 := by
  unfold count_replacements sync_run_ops
  by_cases h1 : (fetch_filter v1).isEmpty <;> by_cases h2 : (fetch_filter v2).isEmpty <;>
    simp [h1, h2, List.countP_append, List.countP_cons]

/-- When no stored row matches the triple, `select_meal` commits the new row
and reports `True`. -/
theorem select_meal_ok_of_not_mem (s : DBState) (u m d c : Nat)
    (h : (s.selections.any fun r =>
      r.user_id == u && r.meal_id == m && r.selected_date == d) = false) :
    select_meal s u m d c false =
      .ok (true, { s with selections := s.selections ++
        [⟨freshId (s.selections.map UserMealSelection.id), u, m, d, c⟩] }) := by
  simp [select_meal, h]

/-! ## C4 — select twice on the same triple -/

/-- **C4.** On a store without the (user, meal, date) triple, the first
`select_meal` inserts the row and returns `True` (Selected); a second call on
the same triple hits the uniqueness constraint and returns `False`
(AlreadySelected, not an error) with the selections unchanged; any other
storage fault propagates as an error. -/
theorem select_meal_first_then_duplicate (s : DBState) (u m d c1 c2 : Nat)
    (h : ∀ r ∈ s.selections,
      ¬(r.user_id = u ∧ r.meal_id = m ∧ r.selected_date = d)) :
    select_meal s u m d c1 false =
      .ok (true, { s with selections := s.selections ++
        [⟨freshId (s.selections.map UserMealSelection.id), u, m, d, c1⟩] }) ∧
    select_meal
      { s with selections := s.selections ++
        [⟨freshId (s.selections.map UserMealSelection.id), u, m, d, c1⟩] }
      u m d c2 false =
      .ok (false, { s with selections := s.selections ++
        [⟨freshId (s.selections.map UserMealSelection.id), u, m, d, c1⟩] }) ∧
    select_meal s u m d c2 true = .error .storageError := by
  have hany : (s.selections.any (fun r =>
      r.user_id == u && r.meal_id == m && r.selected_date == d)) = false := by
    rw [List.any_eq_false]
    intro r hr
    simpa [Bool.and_eq_true, beq_iff_eq, not_and] using h r hr
  refine ⟨?_, ?_, rfl⟩
  · simp [select_meal, hany]
  · simp [select_meal, List.any_append, hany]

/-- **C4 witness**: empty store, user 7, meal 1, date 738886. -/
theorem select_meal_first_then_duplicate_witness :
    (∀ r ∈ (⟨[], []⟩ : DBState).selections,
      ¬(r.user_id = 7 ∧ r.meal_id = 1 ∧ r.selected_date = 738886)) ∧
    (select_meal ⟨[], []⟩ 7 1 738886 0 false =
      .ok (true, ⟨[], [⟨1, 7, 1, 738886, 0⟩]⟩) ∧
    select_meal ⟨[], [⟨1, 7, 1, 738886, 0⟩]⟩ 7 1 738886 3 false =
      .ok (false, ⟨[], [⟨1, 7, 1, 738886, 0⟩]⟩) ∧
    select_meal (⟨[], []⟩ : DBState) 7 1 738886 3 true = .error .storageError) :=
  ⟨by simp, select_meal_first_then_duplicate ⟨[], []⟩ 7 1 738886 0 3 (by simp)⟩

/-! ## C6 — the constraint is on the full triple -/

/-- **C6.** The uniqueness constraint covers (user_id, meal_id,
selected_date), not (user_id, selected_date): for two distinct meal ids, a
user can select both on the same date, and both calls return `True`
(Selected). -/
theorem select_two_meals_same_day (s : DBState) (u d m1 m2 c1 c2 : Nat)
    (hm : m1 ≠ m2)
    (h1 : ∀ r ∈ s.selections,
      ¬(r.user_id = u ∧ r.meal_id = m1 ∧ r.selected_date = d))
    (h2 : ∀ r ∈ s.selections,
      ¬(r.user_id = u ∧ r.meal_id = m2 ∧ r.selected_date = d)) :
    ∃ s1 s2 : DBState,
      select_meal s u m1 d c1 false = .ok (true, s1) ∧
      select_meal s1 u m2 d c2 false = .ok (true, s2) := by
  have hany1 : (s.selections.any (fun r =>
      r.user_id == u && r.meal_id == m1 && r.selected_date == d)) = false := by
    rw [List.any_eq_false]
    intro r hr
    simpa [Bool.and_eq_true, beq_iff_eq, not_and] using h1 r hr
  have hany2 : (s.selections.any (fun r =>
      r.user_id == u && r.meal_id == m2 && r.selected_date == d)) = false := by
    rw [List.any_eq_false]
    intro r hr
    simpa [Bool.and_eq_true, beq_iff_eq, not_and] using h2 r hr
  refine ⟨_, _, select_meal_ok_of_not_mem s u m1 d c1 hany1,
    select_meal_ok_of_not_mem _ u m2 d c2 ?_⟩
  simp [List.any_append, hany2, hm]

/-- **C6 witness**: empty store, user 7, meals 1 and 2, date 738886. -/
theorem select_two_meals_same_day_witness :
    (1 : Nat) ≠ 2 ∧
    (∀ r ∈ (⟨[], []⟩ : DBState).selections,
      ¬(r.user_id = 7 ∧ r.meal_id = 1 ∧ r.selected_date = 738886)) ∧
    (∀ r ∈ (⟨[], []⟩ : DBState).selections,
      ¬(r.user_id = 7 ∧ r.meal_id = 2 ∧ r.selected_date = 738886)) ∧
    (∃ s1 s2 : DBState,
      select_meal ⟨[], []⟩ 7 1 738886 0 false = .ok (true, s1) ∧
      select_meal s1 7 2 738886 0 false = .ok (true, s2)) :=
  ⟨by decide, by simp, by simp,
    select_two_meals_same_day ⟨[], []⟩ 7 738886 1 2 0 0 (by decide) (by simp) (by simp)⟩

/-! ## C7 — dangling meal references -/

/-- **C7.** Selecting a meal id that matches no catalog row still succeeds
(sqlite never enforces the foreign key), and the dangling selection is
invisible to every subsequent weekly query: the inner join drops it, so
`get_user_selections` is unchanged for every user and week. -/
theorem select_dangling_meal_excluded (s : DBState) (u m d c : Nat)
    (hm : ∀ meal ∈ s.meals, meal.id ≠ m)
    (h : ∀ r ∈ s.selections,
      ¬(r.user_id = u ∧ r.meal_id = m ∧ r.selected_date = d)) :
    ∃ s' : DBState,
      select_meal s u m d c false = .ok (true, s') ∧
      ∀ u' w, get_user_selections s' u' w = get_user_selections s u' w := by
  have hany : (s.selections.any (fun r =>
      r.user_id == u && r.meal_id == m && r.selected_date == d)) = false := by
    rw [List.any_eq_false]
    intro r hr
    simpa [Bool.and_eq_true, beq_iff_eq, not_and] using h r hr
  have hfind : s.meals.find? (fun mm => mm.id == m) = none := by
    rw [List.find?_eq_none]
    intro x hx
    simp [hm x hx]
  refine ⟨_, select_meal_ok_of_not_mem s u m d c hany, ?_⟩
  intro u' w
  simp only [get_user_selections, List.filterMap_append]
  have hrow : (List.filterMap (fun r : UserMealSelection =>
      if r.user_id = u' ∧ w ≤ r.selected_date ∧ r.selected_date < w + 7 then
        (s.meals.find? (fun mm => mm.id == r.meal_id)).map
          (fun mm => (mm.name, r.selected_date))
      else none)
      [⟨freshId (s.selections.map UserMealSelection.id), u, m, d, c⟩]) = [] := by
    simp only [List.filterMap_cons, List.filterMap_nil]
    split
    · rfl
    · rename_i b heq
      rw [hfind] at heq
      simp at heq
  rw [hrow, List.append_nil]

/-- **C7 witness**: catalog holds only meal id 1, select meal id 99. -/
theorem select_dangling_meal_excluded_witness :
    (∀ meal ∈ (⟨[⟨1, "Pasta", 0⟩], []⟩ : DBState).meals, meal.id ≠ 99) ∧
    (∀ r ∈ (⟨[⟨1, "Pasta", 0⟩], []⟩ : DBState).selections,
      ¬(r.user_id = 7 ∧ r.meal_id = 99 ∧ r.selected_date = 738886)) ∧
    (∃ s' : DBState,
      select_meal ⟨[⟨1, "Pasta", 0⟩], []⟩ 7 99 738886 0 false = .ok (true, s') ∧
      ∀ u' w, get_user_selections s' u' w =
        get_user_selections ⟨[⟨1, "Pasta", 0⟩], []⟩ u' w) :=
  ⟨by decide, by simp,
    select_dangling_meal_excluded ⟨[⟨1, "Pasta", 0⟩], []⟩ 7 99 738886 0
      (by decide) (by simp)⟩

/-! ## C5 — the weekly window -/

/-- **C5.** On a store with distinct meal ids (the primary-key invariant),
`get_user_selections s u w` is sorted ascending by date, and a pair
`(nm, d)` appears in it exactly when `w ≤ d < w + 7` and the user has a
selection on `d` whose meal id resolves to a catalog meal named `nm`. -/
theorem get_user_selections_weekly_window (s : DBState) (u w : Nat)
    (hids : (s.meals.map Meal.id).Nodup) :
    List.Sorted (fun a b : String × Nat => a.2 ≤ b.2) (get_user_selections s u w) ∧
    ∀ (nm : String) (d : Nat), (nm, d) ∈ get_user_selections s u w ↔
      (w ≤ d ∧ d < w + 7 ∧ ∃ r ∈ s.selections,
        r.user_id = u ∧ r.selected_date = d ∧
        ∃ meal ∈ s.meals, meal.id = r.meal_id ∧ meal.name = nm) := by
  constructor
  · exact List.sorted_insertionSort _ _
  · intro nm d
    simp only [get_user_selections]
    rw [List.mem_insertionSort, List.mem_filterMap]
    constructor
    · rintro ⟨r, hr, hf⟩
      split at hf
      · rename_i hcond
        obtain ⟨hu, hw1, hw2⟩ := hcond
        rw [Option.map_eq_some'] at hf
        obtain ⟨meal, hfind, heq⟩ := hf
        rw [Prod.mk.injEq] at heq
        obtain ⟨hnm, hd⟩ := heq
        subst hd
        subst hnm
        exact ⟨hw1, hw2, r, hr, hu, rfl, meal,
          List.mem_of_find?_eq_some hfind, by simpa using List.find?_some hfind, rfl⟩
      · simp at hf
    · rintro ⟨hw1, hw2, r, hr, hu, hd, meal, hmeal, hid, hnm⟩
      subst hd
      refine ⟨r, hr, ?_⟩
      rw [if_pos ⟨hu, hw1, hw2⟩]
      have hsome : (s.meals.find? (fun mm => mm.id == r.meal_id)).isSome := by
        rw [List.find?_isSome]
        exact ⟨meal, hmeal, by simp [hid]⟩
      obtain ⟨meal', hfind⟩ := Option.isSome_iff_exists.mp hsome
      have hm' : meal' ∈ s.meals := List.mem_of_find?_eq_some hfind
      have hp' : meal'.id = r.meal_id := by simpa using List.find?_some hfind
      have hmm : meal' = meal :=
        List.inj_on_of_nodup_map hids hm' hmeal (by rw [hp', hid])
      rw [hfind, hmm]
      simp [hnm]

/-- **C5 witness**: user 7, week starting 738886 (2024-01-01, a Monday), with
selections on 738886 (2024-01-01), 738892 (2024-01-07) and 738893
(2024-01-08): only the first two are returned, in date order. -/
theorem get_user_selections_weekly_window_witness :
    ((c5_state.meals.map Meal.id).Nodup) ∧
    (List.Sorted (fun a b : String × Nat => a.2 ≤ b.2)
        (get_user_selections c5_state 7 738886) ∧
      ∀ (nm : String) (d : Nat), (nm, d) ∈ get_user_selections c5_state 7 738886 ↔
        (738886 ≤ d ∧ d < 738886 + 7 ∧ ∃ r ∈ c5_state.selections,
          r.user_id = 7 ∧ r.selected_date = d ∧
          ∃ meal ∈ c5_state.meals, meal.id = r.meal_id ∧ meal.name = nm)) ∧
    get_user_selections c5_state 7 738886 = [("Pasta", 738886), ("Pasta", 738892)] :=
  ⟨by decide, get_user_selections_weekly_window c5_state 7 738886 (by decide), by decide⟩
